import Mathlib

/-!
Verification of the e-paper display stack of the stock-crypto tracker.

The development shallowly embeds the two modules the claims are about:

* `src/app/display_driver.py` — class `EPD2in7`, the Waveshare 2.7" V2
  panel driver.  With hardware present, every `send_command`/`send_data`
  call writes one byte on the SPI bus with the DC line low resp. high; a
  hardware reset pulse and a busy-line poll are the other externally
  visible actions.  We model a driver method as the finite trace of these
  bus events it emits.

* `src/app/renderer.py` — class `DisplayRenderer`: the refresh scheduler
  (`_should_full_refresh`), the `render` control flow with its full /
  partial / fallback paths, and the bit-packing function
  `_image_to_buffer`.

PIL drawing (fonts, text metrics) is not modelled bit-for-bit: the frames
produced by the drawing helpers enter the model as parameters, and the
packing function is embedded exactly as written over an abstract pixel
grid.  Times are `Int` seconds (`time.time()` differences); the claims
are stated at whole seconds.
-/

namespace StockTracker

/-- A bus-visible action of the EPD2in7 driver: a reset pulse, a poll of
the busy line (`wait_until_idle`), a command byte (DC low) or a data byte
(DC high). -/
inductive EpdEvent where
  | reset : EpdEvent
  | waitIdle : EpdEvent
  | command : Nat → EpdEvent
  | data : Nat → EpdEvent
deriving DecidableEq, Repr

/-- Trace of `EPD2in7.send_command`: one command byte on the bus. -/
def send_command (b : Nat) : List EpdEvent := [EpdEvent.command b]

/-- Trace of `EPD2in7.send_data`: one data byte on the bus. -/
def send_data (b : Nat) : List EpdEvent := [EpdEvent.data b]

/-- Trace of `EPD2in7.init(mode)` with hardware present (GPIO/SPI setup
has no bus traffic): hardware reset, busy wait, SWRESET (0x12), busy
wait, set RAM-Y range (0x45 with data 00 00 07 01), RAM-Y counter to 0
(0x4F with data 00 00), data entry mode (0x11 with data 03).  The V2
driver uses the same sequence for every `mode` argument. -/
def EPD2in7.init (mode : String) : List EpdEvent :=
  [EpdEvent.reset, EpdEvent.waitIdle]
    ++ send_command 0x12 ++ [EpdEvent.waitIdle]
    ++ send_command 0x45
    ++ send_data 0x00 ++ send_data 0x00 ++ send_data 0x07 ++ send_data 0x01
    ++ send_command 0x4F ++ send_data 0x00 ++ send_data 0x00
    ++ send_command 0x11 ++ send_data 0x03

/-- Trace of `EPD2in7.display_frame(frame_buffer)`: write-RAM command
0x24 followed by every buffer byte as data. -/
def EPD2in7.display_frame (frame_buffer : List Nat) : List EpdEvent :=
  send_command 0x24 ++ frame_buffer.map EpdEvent.data

/-- Trace of `EPD2in7.refresh(mode)`: display-update-control 0x22, the
mode selector data byte (0xFF for "partial", 0xC7 for "fast", 0xF7
otherwise), master activation 0x20, then the busy poll. -/
def EPD2in7.refresh (mode : String) : List EpdEvent :=
  send_command 0x22
    ++ (if mode == "partial" then send_data 0xFF
        else if mode == "fast" then send_data 0xC7
        else send_data 0xF7)
    ++ send_command 0x20 ++ [EpdEvent.waitIdle]

/-- The command bytes of a trace, in order, data bytes dropped. -/
def commandsOf (tr : List EpdEvent) : List Nat :=
  tr.filterMap fun e =>
    match e with
    | EpdEvent.command b => some b
    | _ => none

/-! ### The busy-line poll (`EPD2in7.wait_until_idle`)

The busy line is modelled as the sequence of reads `busy : Nat → Bool`
(`true` = GPIO reads 1).  The Python loop is
`while GPIO.input(busy_pin) == 1 and timeout < 100: sleep(0.1); timeout += 1`,
followed by a printed warning when `timeout >= 100`; the method has no
`return` statement, so it returns `None` to its caller. -/

/-- The loop counter's final value: starting at `t`, keep polling while
the line reads busy and `t < 100`.  `fuel` makes the recursion
structural; the invocation below supplies fuel `100`, which covers every
iteration the guard `t < 100` permits from `t = 0`. -/
def busyLoop (busy : Nat → Bool) : Nat → Nat → Nat
  | t, 0 => t
  | t, fuel + 1 => if busy t && decide (t < 100) then busyLoop busy (t + 1) fuel else t

/-- What a `wait_until_idle` call leaves behind: the final loop counter,
whether the timeout warning was printed, and the Python return value
(always `none`: the method body has no `return`). -/
structure WaitResult where
  iterations : Nat
  warned : Bool
  retVal : Option Bool
deriving DecidableEq, Repr

/-- Embedding of `EPD2in7.wait_until_idle` over a busy-line read
sequence. -/
def wait_until_idle (busy : Nat → Bool) : WaitResult :=
  { iterations := busyLoop busy 0 100
    warned := decide (100 ≤ busyLoop busy 0 100)
    retVal := none }

lemma busyLoop_ge (busy : Nat → Bool) : ∀ fuel t, t ≤ busyLoop busy t fuel := by
  intro fuel
  induction fuel with
  | zero => intro t; simp [busyLoop]
  | succ fuel ih =>
      intro t
      rw [busyLoop]
      split
      · exact le_trans (Nat.le_succ t) (ih (t + 1))
      · exact le_refl t

lemma busyLoop_le (busy : Nat → Bool) :
    ∀ fuel t, t + fuel ≤ 100 → busyLoop busy t fuel ≤ 100 := by
  intro fuel
  induction fuel with
  | zero => intro t h; simpa [busyLoop] using by omega
  | succ fuel ih =>
      intro t h
      rw [busyLoop]
      split
      · exact ih (t + 1) (by omega)
      · omega

lemma busyLoop_busy_before (busy : Nat → Bool) :
    ∀ fuel t i, t ≤ i → i < busyLoop busy t fuel → busy i = true := by
  intro fuel
  induction fuel with
  | zero => intro t i hti hlt; simp [busyLoop] at hlt; omega
  | succ fuel ih =>
      intro t i hti hlt
      rw [busyLoop] at hlt
      by_cases hb : busy t = true
      · by_cases hlt100 : t < 100
        · simp [hb, hlt100] at hlt
          rcases Nat.lt_or_ge t i with hti' | hti'
          · exact ih (t + 1) i (by omega) hlt
          · have : i = t := by omega
            simpa [this] using hb
        · simp [hb, hlt100] at hlt; omega
      · simp [hb] at hlt; omega

lemma busyLoop_stops_idle (busy : Nat → Bool) :
    ∀ fuel t, t + fuel = 100 → busyLoop busy t fuel < 100 →
      busy (busyLoop busy t fuel) = false := by
  intro fuel
  induction fuel with
  | zero => intro t hft hlt; simp [busyLoop] at hlt ⊢; omega
  | succ fuel ih =>
      intro t hft hlt
      rw [busyLoop] at hlt ⊢
      by_cases hb : busy t = true
      · have hlt100 : t < 100 := by omega
        simp [hb, hlt100] at hlt ⊢
        exact ih (t + 1) (by omega) hlt
      · simp [hb] at hlt ⊢

/-! ### Frames and bit packing (`DisplayRenderer._image_to_buffer`)

A PIL mode-'1' image is a `width × height` grid whose `getpixel` returns
0 for BLACK and 255 for WHITE.  `_image_to_buffer` walks rows top to
bottom, groups each row into chunks of 8 pixels starting at
`x = 0, 8, 16, …`, and builds each byte by setting bit `0x80 >> bit`
exactly when the pixel at `x + bit` exists and reads 255. -/

/-- A PIL mode-'1' image: dimensions plus the pixel reader. -/
structure Image where
  width : Nat
  height : Nat
  getpixel : Nat → Nat → Nat

/-- One output byte of `_image_to_buffer`: the inner `for bit in range(8)`
loop starting at column `x` of row `y`, with `byte |= (0x80 >> bit)` when
the guarded pixel reads 255. -/
def packByte (image : Image) (x y : Nat) : Nat :=
  (List.range 8).foldl
    (fun byte bit =>
      if x + bit < image.width ∧ image.getpixel (x + bit) y = 255 then
        byte ||| (0x80 >>> bit)
      else byte)
    0

/-- Embedding of `DisplayRenderer._image_to_buffer`: for each row `y`,
one byte per chunk `x = 8*g`, `g < ⌈width/8⌉` (Python's
`range(0, img_width, 8)`), flattened row-major. -/
def image_to_buffer (image : Image) : List Nat :=
  (List.range image.height).flatMap fun y =>
    (List.range ((image.width + 7) / 8)).map fun g => packByte image (8 * g) y

lemma or_ite_or (a m : Nat) (c : Prop) [Decidable c] :
    (if c then a ||| m else a) = a ||| (if c then m else 0) := by
  split <;> simp

lemma testBit_ite_pow (c : Prop) [Decidable c] (j k : Nat) :
    (if c then 2 ^ j else 0).testBit k = (decide c && decide (j = k)) := by
  split <;> simp_all [Nat.testBit_two_pow, Nat.zero_testBit]

/-- Bit `k` (for `k < 8`) of a packed byte is set exactly when column
`x + (7 - k)` is inside the row and that pixel is WHITE (255). -/
lemma packByte_testBit (image : Image) (x y k : Nat) (hk : k < 8) :
    (packByte image x y).testBit k =
      decide (x + (7 - k) < image.width ∧ image.getpixel (x + (7 - k)) y = 255) := by
  have h8 : List.range 8 = [0, 1, 2, 3, 4, 5, 6, 7] := by decide
  rw [packByte, h8]
  simp only [List.foldl_cons, List.foldl_nil]
  simp only [or_ite_or]
  have e0 : (0x80 >>> 0 : Nat) = 2 ^ 7 := by decide
  have e1 : (0x80 >>> 1 : Nat) = 2 ^ 6 := by decide
  have e2 : (0x80 >>> 2 : Nat) = 2 ^ 5 := by decide
  have e3 : (0x80 >>> 3 : Nat) = 2 ^ 4 := by decide
  have e4 : (0x80 >>> 4 : Nat) = 2 ^ 3 := by decide
  have e5 : (0x80 >>> 5 : Nat) = 2 ^ 2 := by decide
  have e6 : (0x80 >>> 6 : Nat) = 2 ^ 1 := by decide
  have e7 : (0x80 >>> 7 : Nat) = 2 ^ 0 := by decide
  rw [e0, e1, e2, e3, e4, e5, e6, e7]
  simp only [Nat.testBit_or, testBit_ite_pow, Nat.zero_testBit]
  interval_cases k <;> simp

/-- The buffer has one byte per row chunk: `⌈width/8⌉ * height` bytes. -/
lemma image_to_buffer_length (image : Image) :
    (image_to_buffer image).length = ((image.width + 7) / 8) * image.height := by
  rw [image_to_buffer, List.length_flatMap]
  have h : (List.range image.height).map
        (List.length ∘ fun y =>
          (List.range ((image.width + 7) / 8)).map fun g => packByte image (8 * g) y)
      = List.replicate image.height ((image.width + 7) / 8) := by
    refine List.eq_replicate_iff.mpr ⟨by simp, ?_⟩
    intro b hb
    rcases List.mem_map.mp hb with ⟨y, _, rfl⟩
    simp
  rw [h, List.sum_replicate, smul_eq_mul, Nat.mul_comm]

/-- Indexing a row-major flatMap of equal-length rows at `y * g + j`
returns entry `j` of row `y`. -/
lemma flatMap_row_getD (f : Nat → List Nat) (g : Nat) (hlen : ∀ y, (f y).length = g) :
    ∀ n s y j, y < n → j < g →
      ((List.range' s n).flatMap f).getD (y * g + j) 0 = (f (s + y)).getD j 0 := by
  intro n
  induction n with
  | zero => intro s y j hy hj; omega
  | succ n ih =>
      intro s y j hy hj
      rw [List.range'_succ, List.flatMap_cons]
      cases y with
      | zero =>
          rw [List.getD_append _ _ _ _ (by rw [hlen]; omega)]
          simp
      | succ y =>
          rw [List.getD_append_right _ _ _ _ (by rw [hlen]; nlinarith)]
          rw [hlen]
          have harith : (y + 1) * g + j - g = y * g + j := by
            have hmul : (y + 1) * g = y * g + g := by ring
            omega
          rw [harith, ih (s + 1) y j (by omega) hj]
          have hs : s + 1 + y = s + (y + 1) := by omega
          rw [hs]

/-- Indexing the buffer at `y * ⌈width/8⌉ + j` returns the byte packed
from chunk `j` of row `y`. -/
lemma image_to_buffer_getD (image : Image) (y j : Nat)
    (hy : y < image.height) (hj : j < (image.width + 7) / 8) :
    (image_to_buffer image).getD (y * ((image.width + 7) / 8) + j) 0 =
      packByte image (8 * j) y := by
  have hlen : ∀ y' : Nat,
      ((List.range ((image.width + 7) / 8)).map fun k => packByte image (8 * k) y').length
        = (image.width + 7) / 8 := by
    intro y'; simp
  rw [image_to_buffer, List.range_eq_range' image.height]
  rw [flatMap_row_getD _ _ hlen image.height 0 y j hy hj]
  rw [List.getD_eq_getElem?_getD, List.getElem?_map, List.getElem?_range hj]
  simp

/-! ### Logical frames, the spec's codec view, and `unpack`

The spec's LogicalFrame is a WIDTH×HEIGHT grid of BLACK/WHITE pixels;
`true` stands for WHITE.  `toImage` is the PIL image such a frame
presents to `_image_to_buffer` (WHITE ↦ 255, BLACK ↦ 0, reads outside
the grid return 0 and are never exercised by in-range packing). -/

/-- A logical frame: WIDTH×HEIGHT 1-bit pixels, `true` = WHITE. -/
def LogicalFrame (w h : Nat) := Fin w → Fin h → Bool

/-- The PIL image a logical frame presents to the packing code. -/
def toImage (w h : Nat) (F : LogicalFrame w h) : Image where
  width := w
  height := h
  getpixel := fun x y =>
    if hx : x < w then
      if hy : y < h then (if F ⟨x, hx⟩ ⟨y, hy⟩ then 255 else 0) else 0
    else 0

/-- Modelled from the spec: `unpack(buf)` — absent from `src/`, required
by §8's round-trip law — is the exact inverse of `pack`: pixel `(x, y)`
is WHITE exactly when bit `(7 - columnOffset)` of the byte for row `y`,
chunk `x / 8` is set. -/
def unpack (w h : Nat) (buf : List Nat) : LogicalFrame w h :=
  fun x y => (buf.getD (y.val * ((w + 7) / 8) + x.val / 8) 0).testBit (7 - x.val % 8)

lemma unpack_image_to_buffer (w h : Nat) (F : LogicalFrame w h) :
    unpack w h (image_to_buffer (toImage w h F)) = F := by
  funext x y
  have hx8 : x.val % 8 < 8 := Nat.mod_lt _ (by omega)
  have hj : x.val / 8 < (w + 7) / 8 := by have := x.isLt; omega
  show ((image_to_buffer (toImage w h F)).getD
      (y.val * (((toImage w h F).width + 7) / 8) + x.val / 8) 0).testBit (7 - x.val % 8)
    = F x y
  rw [image_to_buffer_getD (toImage w h F) y.val (x.val / 8) y.isLt hj]
  rw [packByte_testBit _ _ _ _ (by omega)]
  have hcol : 8 * (x.val / 8) + (7 - (7 - x.val % 8)) = x.val := by omega
  rw [hcol]
  simp only [toImage, x.isLt, y.isLt, dif_pos]
  cases hF : F x y <;> simp [hF, Fin.eta, x.isLt]

/-! ### Refresh scheduling and `DisplayRenderer.render`

State the render path depends on: the config-derived thresholds
`full_refresh_minutes` / `full_refresh_after_partials`, the bookkeeping
fields `last_full_refresh` / `partial_count`, and the retained frame
`last_image`.  `render` is modelled for an initialized renderer in
normal (non-"blank") mode; the PIL drawing helpers enter as parameters:
`drawnFull` is the frame `_render_full` composes from scratch and
`drawnPartial` the frame `_render_partial` composes on a copy of the
retained one.  The emitted driver-call trace reuses the `EPD2in7`
traces above. -/

/-- The `DisplayRenderer` fields the refresh logic reads and writes. -/
structure RendererState where
  fullRefreshMinutes : Nat
  fullAfterPartials : Nat
  lastFullRefresh : Int
  partialCount : Nat
  lastImage : Option Image

/-- Embedding of `DisplayRenderer._should_full_refresh`: time-based check
(strict `>` against `full_refresh_minutes * 60` seconds), then
count-based check, else `False`. -/
def shouldFullRefresh (now : Int) (st : RendererState) : Bool :=
  if now - st.lastFullRefresh > (st.fullRefreshMinutes * 60 : Nat) then true
  else if st.partialCount ≥ st.fullAfterPartials then true
  else false

/-- Which branch a `render` call took: the scheduler-decided full path,
the fallback full path inside `_render_partial` (no retained frame), or
the genuine partial path. -/
inductive RenderPath where
  | scheduledFull : RenderPath
  | fallbackFull : RenderPath
  | partialStep : RenderPath
deriving DecidableEq, Repr

/-- Embedding of `DisplayRenderer.render` past the init/blank-mode
guards: decide the refresh mode, run `_render_full` or `_render_partial`
(with its fallback), and update `last_full_refresh` / `partial_count` /
`last_image` exactly as the Python does.  Returns the new state, the
driver trace, and the branch taken. -/
def render (now : Int) (drawnFull : Image) (drawnPartial : Image → Image)
    (st : RendererState) : RendererState × List EpdEvent × RenderPath :=
  if shouldFullRefresh now st then
    ({ st with lastFullRefresh := now, partialCount := 0, lastImage := some drawnFull },
     EPD2in7.init "full" ++ EPD2in7.display_frame (image_to_buffer drawnFull)
       ++ EPD2in7.refresh "full",
     RenderPath.scheduledFull)
  else
    match st.lastImage with
    | none =>
        ({ st with partialCount := st.partialCount + 1, lastImage := some drawnFull },
         EPD2in7.init "full" ++ EPD2in7.display_frame (image_to_buffer drawnFull)
           ++ EPD2in7.refresh "full",
         RenderPath.fallbackFull)
    | some prev =>
        ({ st with partialCount := st.partialCount + 1, lastImage := some (drawnPartial prev) },
         EPD2in7.init "partial"
           ++ EPD2in7.display_frame (image_to_buffer (drawnPartial prev))
           ++ EPD2in7.refresh "partial",
         RenderPath.partialStep)

/-! ### Concrete frames for the boundary and polarity checks -/

/-- WIDTH=8, HEIGHT=1 frame, BLACK at (0,0), WHITE elsewhere. -/
def blackDotFrame : Image where
  width := 8
  height := 1
  getpixel := fun x y => if x = 0 ∧ y = 0 then 0 else 255

/-- WIDTH=8, HEIGHT=1 all-WHITE frame. -/
def allWhiteFrame : Image where
  width := 8
  height := 1
  getpixel := fun _ _ => 255

/-- All-BLACK frame of arbitrary dimensions. -/
def allBlackFrame (w h : Nat) : Image where
  width := w
  height := h
  getpixel := fun _ _ => 0

/-- A frame whose dimensions disagree with the configured 264×176 panel. -/
def wrongSizeFrame : Image where
  width := 4
  height := 1
  getpixel := fun _ _ => 255

/-- A renderer state just after `init()`: counters fresh, no retained
frame, config defaults `full_every_minutes = 45`,
`full_after_partials = 60`. -/
def freshState : RendererState where
  fullRefreshMinutes := 45
  fullAfterPartials := 60
  lastFullRefresh := 0
  partialCount := 0
  lastImage := none

/-- The scheduler state of the spec's time-trigger example:
`fullRefreshIntervalSeconds = 60` (one minute),
`maxPartialsBeforeFull = 1000`, last full refresh at time 0. -/
def minuteState : RendererState where
  fullRefreshMinutes := 1
  fullAfterPartials := 1000
  lastFullRefresh := 0
  partialCount := 0
  lastImage := none

lemma allBlackFrame_packs_zero (w h : Nat) :
    image_to_buffer (allBlackFrame w h) = List.replicate (((w + 7) / 8) * h) 0 := by
  have hbyte : ∀ x y, packByte (allBlackFrame w h) x y = 0 := by
    intro x y
    rw [packByte]
    have : ∀ bit, ¬(x + bit < (allBlackFrame w h).width ∧
        (allBlackFrame w h).getpixel (x + bit) y = 255) := by
      intro bit h
      simpa [allBlackFrame] using h.2
    simp [this]
  rw [image_to_buffer]
  have hrow : ∀ y, ((List.range (((allBlackFrame w h).width + 7) / 8)).map
      fun g => packByte (allBlackFrame w h) (8 * g) y)
        = List.replicate ((w + 7) / 8) 0 := by
    intro y
    refine List.eq_replicate_iff.mpr ⟨by simp [allBlackFrame], ?_⟩
    intro b hb
    rcases List.mem_map.mp hb with ⟨g, _, rfl⟩
    exact hbyte _ _
  have hbind : ∀ (l : List Nat),
      (l.flatMap fun _ => List.replicate ((w + 7) / 8) (0 : Nat))
        = List.replicate (l.length * ((w + 7) / 8)) 0 := by
    intro l
    induction l with
    | nil => simp
    | cons a l ih =>
        rw [List.flatMap_cons, ih]
        rw [show (a :: l).length = 1 + l.length from by simp [Nat.add_comm]]
        rw [Nat.add_mul, one_mul, List.replicate_add]
  calc ((List.range (allBlackFrame w h).height).flatMap fun y =>
          (List.range (((allBlackFrame w h).width + 7) / 8)).map
            fun g => packByte (allBlackFrame w h) (8 * g) y)
      = (List.range h).flatMap fun _ => List.replicate ((w + 7) / 8) (0 : Nat) := by
        apply List.flatMap_congr ?_
        intro y _
        exact hrow y
    _ = List.replicate (((w + 7) / 8) * h) 0 := by
        rw [hbind]; simp [Nat.mul_comm]

/-! ## The claims -/

/-- C1 (counterexample): the claimed initialization command sequence
(software reset 0x12, driver-output-control 0x01, data-entry-mode 0x11,
RAM-X range 0x44, RAM-Y range 0x45, border-waveform 0x3C,
temperature-sensor 0x18, counter reset 0x4E/0x4F) is not what
`EPD2in7.init` emits: the code sends only 0x12, 0x45, 0x4F, 0x11. -/
theorem C1_init_commands_cex :
    commandsOf (EPD2in7.init "full") ≠
      [0x12, 0x01, 0x11, 0x44, 0x45, 0x3C, 0x18, 0x4E, 0x4F] := by decide

/-- C1 (amended): with hardware present, `EPD2in7.init` emits exactly a
hardware reset, a busy wait, software reset (0x12), a busy wait, set
RAM-Y range (0x45 with data 00 00 07 01), RAM-Y counter reset (0x4F with
data 00 00) and data-entry-mode (0x11 with data 03); the command bytes
are [0x12, 0x45, 0x4F, 0x11] and the sequence is the same for every
`mode` argument. -/
theorem C1_init_trace :
    EPD2in7.init "full" =
      [EpdEvent.reset, EpdEvent.waitIdle, EpdEvent.command 0x12, EpdEvent.waitIdle,
       EpdEvent.command 0x45, EpdEvent.data 0x00, EpdEvent.data 0x00,
       EpdEvent.data 0x07, EpdEvent.data 0x01,
       EpdEvent.command 0x4F, EpdEvent.data 0x00, EpdEvent.data 0x00,
       EpdEvent.command 0x11, EpdEvent.data 0x03] ∧
    commandsOf (EPD2in7.init "full") = [0x12, 0x45, 0x4F, 0x11] ∧
    ∀ mode, EPD2in7.init mode = EPD2in7.init "full" :=
  ⟨by decide, by decide, fun _ => rfl⟩

/-- C2 (counterexample): at `now` exactly `lastFullRefresh +
fullRefreshMinutes * 60` (here 60 seconds with a one-minute interval and
`maxPartialsBeforeFull = 1000`), the claimed `>=` trigger holds, yet
`_should_full_refresh` returns `false` (PARTIAL): the code compares with
strict `>`. -/
theorem C2_boundary_cex :
    (60 : Int) - minuteState.lastFullRefresh ≥
        ((minuteState.fullRefreshMinutes * 60 : Nat) : Int) ∧
    minuteState.partialCount < minuteState.fullAfterPartials ∧
    shouldFullRefresh 60 minuteState = false := by decide

/-- C2 (amended): `_should_full_refresh` returns FULL exactly when
`now - lastFullRefresh` strictly exceeds `fullRefreshMinutes * 60`
seconds or `partialCount ≥ fullAfterPartials`; in particular with a
one-minute interval a decide at `now = lastFull + 61` returns FULL. -/
theorem C2_decide (now : Int) (st : RendererState) :
    (shouldFullRefresh now st = true ↔
      now - st.lastFullRefresh > ((st.fullRefreshMinutes * 60 : Nat) : Int) ∨
        st.partialCount ≥ st.fullAfterPartials) ∧
    shouldFullRefresh 61 minuteState = true := by
  refine ⟨?_, by decide⟩
  rw [shouldFullRefresh]
  split_ifs with h1 h2
  · exact iff_of_true rfl (Or.inl h1)
  · exact iff_of_true rfl (Or.inr h2)
  · exact iff_of_false (by simp) (fun hor => hor.elim h1 h2)

/-- C3: `_image_to_buffer` sets bit `7 - columnOffset` (i.e. bit `k` of
a chunk byte speaks about column `x + (7 - k)`) exactly when that column
exists and its pixel is WHITE (255) — so BLACK pixels and the unused
trailing bits of a partial byte stay clear; consequently the 8×1 frame
with one BLACK pixel at (0,0) packs to 0x7F, the all-WHITE 8×1 frame to
0xFF, and every all-BLACK frame to all-0x00 bytes. -/
theorem C3_pack_polarity :
    (∀ (image : Image) (x y k : Nat), k < 8 →
        ((packByte image x y).testBit k = true ↔
          x + (7 - k) < image.width ∧ image.getpixel (x + (7 - k)) y = 255)) ∧
    image_to_buffer blackDotFrame = [0x7F] ∧
    image_to_buffer allWhiteFrame = [0xFF] ∧
    ∀ w h, image_to_buffer (allBlackFrame w h) = List.replicate (((w + 7) / 8) * h) 0 :=
  ⟨fun image x y k hk => by rw [packByte_testBit image x y k hk]; simp,
   by decide, by decide, fun w h => allBlackFrame_packs_zero w h⟩

/-- C3 (witness): the bit characterization applied to the all-WHITE 8×1
frame at bit 7 of its single byte. -/
theorem C3_pack_polarity_w :
    (packByte allWhiteFrame 0 0).testBit 7 = true ↔
      0 + (7 - 7) < allWhiteFrame.width ∧
        allWhiteFrame.getpixel (0 + (7 - 7)) 0 = 255 :=
  C3_pack_polarity.1 allWhiteFrame 0 0 7 (by decide)

/-- C4: `unpack` (modelled from the spec, §8) is the exact inverse of
the packing code: for every logical frame, of the configured dimensions
or any other, `unpack (pack F) = F`. -/
theorem C4_roundtrip (w h : Nat) (F : LogicalFrame w h) :
    unpack w h (image_to_buffer (toImage w h F)) = F :=
  unpack_image_to_buffer w h F

/-- C5: the packed buffer always has exactly `⌈width/8⌉ * height`
bytes. -/
theorem C5_buffer_length (image : Image) :
    (image_to_buffer image).length = ((image.width + 7) / 8) * image.height :=
  image_to_buffer_length image

/-- C6 (counterexample): a first-ever render (no retained frame) under a
PARTIAL scheduler decision takes the fallback full path — the full
drawing-and-transmit trace is emitted — yet `partial_count` ends at 1,
not 0: the reset happens only in `render`'s scheduled-FULL branch, and
the fallback inside `_render_partial` is followed by `partial_count += 1`. -/
theorem C6_fallback_counter_cex :
    (render 10 allWhiteFrame id freshState).2.2 = RenderPath.fallbackFull ∧
    (render 10 allWhiteFrame id freshState).2.1 =
      EPD2in7.init "full" ++ EPD2in7.display_frame (image_to_buffer allWhiteFrame)
        ++ EPD2in7.refresh "full" ∧
    (render 10 allWhiteFrame id freshState).1.partialCount = 1 := by
  refine ⟨rfl, rfl, rfl⟩

/-- C6 (amended): `partial_count` is 0 after a render exactly when the
scheduler-decided FULL path executed; both the genuine partial path and
the fallback full path (PARTIAL decision, no retained frame) leave it at
the old count plus one. -/
theorem C6_counter_reset (now : Int) (df : Image) (dp : Image → Image)
    (st : RendererState) :
    ((render now df dp st).1.partialCount = 0 ↔
      (render now df dp st).2.2 = RenderPath.scheduledFull) ∧
    (render now df dp st).1.partialCount =
      (if (render now df dp st).2.2 = RenderPath.scheduledFull then 0
       else st.partialCount + 1) := by
  unfold render
  split
  · simp
  · cases st.lastImage with
    | none => simp
    | some prev => simp

/-- C7: whenever no retained frame exists (the first render ever),
`render` performs the full drawing-and-transmit path — the driver
receives a full init, the freshly drawn frame's buffer and a full
refresh — and retains that fresh frame, whatever the scheduler
decided. -/
theorem C7_first_render_is_full (now : Int) (df : Image) (dp : Image → Image)
    (st : RendererState) (h : st.lastImage = none) :
    (render now df dp st).2.1 =
      EPD2in7.init "full" ++ EPD2in7.display_frame (image_to_buffer df)
        ++ EPD2in7.refresh "full" ∧
    (render now df dp st).1.lastImage = some df ∧
    ((render now df dp st).2.2 = RenderPath.scheduledFull ∨
      (render now df dp st).2.2 = RenderPath.fallbackFull) := by
  unfold render
  split
  · exact ⟨rfl, rfl, Or.inl rfl⟩
  · rw [h]
    exact ⟨rfl, rfl, Or.inr rfl⟩

/-- C7 (witness): the first render from a fresh state (no retained
frame, scheduler would say PARTIAL) takes the full path. -/
theorem C7_first_render_is_full_w :
    (render 10 allWhiteFrame id freshState).2.1 =
      EPD2in7.init "full" ++ EPD2in7.display_frame (image_to_buffer allWhiteFrame)
        ++ EPD2in7.refresh "full" ∧
    (render 10 allWhiteFrame id freshState).1.lastImage = some allWhiteFrame ∧
    ((render 10 allWhiteFrame id freshState).2.2 = RenderPath.scheduledFull ∨
      (render 10 allWhiteFrame id freshState).2.2 = RenderPath.fallbackFull) :=
  C7_first_render_is_full 10 allWhiteFrame id freshState rfl

/-- C8 (counterexample): `_image_to_buffer` does not reject a frame
whose dimensions disagree with the configured 264×176 panel: the 4×1
all-WHITE frame is packed to the buffer [0xF0] instead of failing
fast — the code reads `image.size` and performs no dimension check. -/
theorem C8_no_reject_cex :
    (wrongSizeFrame.width ≠ 264 ∨ wrongSizeFrame.height ≠ 176) ∧
    image_to_buffer wrongSizeFrame = [0xF0] := by
  exact ⟨Or.inl (by decide), by decide⟩

/-- C8 (amended): `_image_to_buffer` performs no dimension check against
the configured panel size: it packs any frame, mismatched or not, using
the frame's own dimensions, and always produces a `⌈width/8⌉ * height`
byte buffer. -/
theorem C8_pack_total (image : Image)
    (hmis : image.width ≠ 264 ∨ image.height ≠ 176) :
    (image_to_buffer image).length = ((image.width + 7) / 8) * image.height :=
  image_to_buffer_length image

/-- C8 (witness): the mismatched 4×1 frame is packed to a 1-byte
buffer. -/
theorem C8_pack_total_w :
    (image_to_buffer wrongSizeFrame).length =
      ((wrongSizeFrame.width + 7) / 8) * wrongSizeFrame.height :=
  C8_pack_total wrongSizeFrame (Or.inl (by decide))

/-- C9 (counterexample): `wait_until_idle` does not return a boolean
"became idle" result: the Python method has no return statement, so even
on a line that stays busy through the whole budget (warning printed) the
caller receives `None`. -/
theorem C9_returns_none_cex :
    (wait_until_idle fun _ => true).warned = true ∧
    (wait_until_idle fun _ => true).retVal = none := by decide

/-- C9 (amended): `wait_until_idle` polls the busy line at a fixed
interval for at most 100 iterations, stopping at the first idle read;
every read before the stop was busy; the timeout warning fires exactly
when the line stayed busy for all 100 polls; the call always terminates
(never raises) and returns `None` rather than a boolean. -/
theorem C9_wait_spec (busy : Nat → Bool) :
    (wait_until_idle busy).iterations ≤ 100 ∧
    (∀ i < (wait_until_idle busy).iterations, busy i = true) ∧
    ((wait_until_idle busy).iterations < 100 →
      busy (wait_until_idle busy).iterations = false) ∧
    ((wait_until_idle busy).warned = true ↔ ∀ i < 100, busy i = true) ∧
    (wait_until_idle busy).retVal = none := by
  have hle := busyLoop_le busy 100 0 (by omega)
  have hbefore := fun i hi => busyLoop_busy_before busy 100 0 i (Nat.zero_le i) hi
  have hstop := busyLoop_stops_idle busy 100 0 (by omega)
  refine ⟨hle, hbefore, hstop, ?_, rfl⟩
  rw [wait_until_idle]
  simp only [decide_eq_true_eq]
  constructor
  · intro h100 i hi
    exact hbefore i (by omega)
  · intro hall
    by_contra hlt
    have hlt' : busyLoop busy 0 100 < 100 := by omega
    have := hstop hlt'
    rw [hall _ hlt'] at this
    cases this

/-- C9 (witness): the amended specification applied to a line that is
idle from the first read: zero iterations, no warning, `None`
returned. -/
theorem C9_wait_spec_w :
    (wait_until_idle fun _ => false).iterations ≤ 100 ∧
    (∀ i < (wait_until_idle fun _ => false).iterations, (fun _ => false) i = true) ∧
    ((wait_until_idle fun _ => false).iterations < 100 →
      (fun _ => false) (wait_until_idle fun _ => false).iterations = false) ∧
    ((wait_until_idle fun _ => false).warned = true ↔
      ∀ i < 100, (fun _ => false) i = true) ∧
    (wait_until_idle fun _ => false).retVal = none :=
  C9_wait_spec fun _ => false

/-- C10: `EPD2in7.refresh` issues display-update-control 0x22 followed
by exactly one mode-selector data byte — 0xF7 for "full", 0xC7 for
"fast", 0xFF for "partial" — then master-activate 0x20, then the busy
poll; every mode argument yields a trace of this shape, so the call
completes whether or not the busy poll resolved. -/
theorem C10_refresh_trace :
    EPD2in7.refresh "full" =
      [EpdEvent.command 0x22, EpdEvent.data 0xF7, EpdEvent.command 0x20,
       EpdEvent.waitIdle] ∧
    EPD2in7.refresh "fast" =
      [EpdEvent.command 0x22, EpdEvent.data 0xC7, EpdEvent.command 0x20,
       EpdEvent.waitIdle] ∧
    EPD2in7.refresh "partial" =
      [EpdEvent.command 0x22, EpdEvent.data 0xFF, EpdEvent.command 0x20,
       EpdEvent.waitIdle] ∧
    ∀ mode, ∃ sel,
      EPD2in7.refresh mode =
        [EpdEvent.command 0x22, EpdEvent.data sel, EpdEvent.command 0x20,
         EpdEvent.waitIdle] ∧
      (sel = 0xF7 ∨ sel = 0xC7 ∨ sel = 0xFF) := by
  refine ⟨by decide, by decide, by decide, ?_⟩
  intro mode
  rw [EPD2in7.refresh]
  by_cases h1 : mode == "partial"
  · exact ⟨0xFF, by simp [h1, send_command, send_data], Or.inr (Or.inr rfl)⟩
  · by_cases h2 : mode == "fast"
    · exact ⟨0xC7, by simp [h1, h2, send_command, send_data], Or.inr (Or.inl rfl)⟩
    · exact ⟨0xF7, by simp [h1, h2, send_command, send_data], Or.inl rfl⟩

end StockTracker
